import Mathlib

/-!
Verification of the CTRM simulator's frame-extraction pipeline, attempt
scorer and test-session logic, shallowly embedded from the TypeScript
sources.  Timestamps, coordinates and confidences are modelled as
rationals; the JavaScript runtime's `Math.random` is modelled as an
explicit oracle `rng : Nat → Rat`; reading a file that may fail is
modelled as an `Option` input (where `none` stands for the read throwing).
-/

namespace CTRM

/-- Embeds `validateClickTolerance` from `client/src/lib/utils.ts` (lines
19 to 28): a click is correct when it is within `tolerance` of the
expected point on each axis independently; the default tolerance is 25. -/
def validateClickTolerance (clickX clickY expectedX expectedY : ℚ)
    (tolerance : ℚ := 25) : Bool :=
  decide (|clickX - expectedX| ≤ tolerance) &&
    decide (|clickY - expectedY| ≤ tolerance)

/-- Embeds the inline correctness check of `handleHotspotClick` in the
`TestDisplay` component: `tolerance = 25`, per-axis absolute difference. -/
def testDisplayIsCorrect (originalX originalY hotspotX hotspotY : ℚ) : Bool :=
  decide (|originalX - hotspotX| ≤ 25) && decide (|originalY - hotspotY| ≤ 25)

/-- A detected interval of speech; embeds the objects
`{start: number, end: number}` pushed onto `speechSegments` in the upload
route (the source field `end` is a Lean keyword, rendered here as `stop`). -/
structure SpeechSeg where
  start : ℚ
  stop : ℚ
deriving DecidableEq

/-- One line of the ffmpeg `silencedetect` output, as classified by the
parsing loop: a line matching `silence_start: t`, a line matching
`silence_end: t`, or any other line (skipped). -/
inductive AudioLine where
  | silenceStart (t : ℚ)
  | silenceEnd (t : ℚ)
  | other
deriving DecidableEq

/-- The mutable state of the audio-analysis parsing loop in the upload
route: the open `silenceStart` marker, `lastSpeechEnd` (initially 0) and
the list of segments pushed so far. -/
structure ParseState where
  silenceStart : Option ℚ
  lastSpeechEnd : ℚ
  segs : List SpeechSeg
deriving DecidableEq

/-- One iteration of the parsing loop over the audio-analysis lines: a
`silence_start: t` line is handled only when no silence is currently open
(`silenceStart = none`), emitting `[lastSpeechEnd, t]` when
`t > lastSpeechEnd + 3` and then opening the marker; a `silence_end: t`
line is handled only when a silence is open, setting `lastSpeechEnd := t`
and clearing the marker. -/
def parseStep (st : ParseState) : AudioLine → ParseState
  | .silenceStart t =>
    match st.silenceStart with
    | none =>
      { silenceStart := some t
        lastSpeechEnd := st.lastSpeechEnd
        segs :=
          if st.lastSpeechEnd + 3 < t then st.segs ++ [⟨st.lastSpeechEnd, t⟩]
          else st.segs }
    | some _ => st
  | .silenceEnd t =>
    match st.silenceStart with
    | some _ => { silenceStart := none, lastSpeechEnd := t, segs := st.segs }
    | none => st
  | .other => st

/-- Embeds the whole parsing loop: fold `parseStep` over the lines from
the initial state `silenceStart = null`, `lastSpeechEnd = 0`, no
segments. -/
def parseSpeechSegments (lines : List AudioLine) : List SpeechSeg :=
  (lines.foldl parseStep ⟨none, 0, []⟩).segs

/-- The assumed maximum duration used by the fallback branch
(`const videoDuration = 300`). -/
def videoDuration : ℚ := 300

/-- Embeds the fallback grid built in the `catch` branch of the audio
parse: `ceil(videoDuration / 15)` pseudo-segments `[15 i, 15 i + 2]`. -/
def fallbackSegments : List SpeechSeg :=
  (List.range (Nat.ceil (videoDuration / 15))).map fun i : ℕ =>
    ⟨(i : ℚ) * 15, (i : ℚ) * 15 + 2⟩

/-- Embeds the try/catch around reading and parsing
`audio_analysis.txt`: `none` stands for `fs.readFileSync` throwing (the
only throwing operation in the `try` block), in which case the `catch`
branch installs the fallback grid; otherwise the lines are parsed. -/
def computeSpeechSegments : Option (List AudioLine) → List SpeechSeg
  | none => fallbackSegments
  | some lines => parseSpeechSegments lines

/-- State for the claim-worded segmentation rule, which keeps only
`lastSpeechEnd` and the emitted segments (no open-silence marker). -/
structure ClaimState where
  lastSpeechEnd : ℚ
  segs : List SpeechSeg
deriving DecidableEq

/-- Modelled from the claim's words (for comparison with the source): a
segmentation that emits `[lastSpeechEnd, t]` on a silence-start at `t`
exactly when `t - lastSpeechEnd > 3`, and sets `lastSpeechEnd := t` on
every silence-end — with no condition on an open silence marker. -/
def claimStep (st : ClaimState) : AudioLine → ClaimState
  | .silenceStart t =>
    if 3 < t - st.lastSpeechEnd then
      { lastSpeechEnd := st.lastSpeechEnd, segs := st.segs ++ [⟨st.lastSpeechEnd, t⟩] }
    else st
  | .silenceEnd t => { lastSpeechEnd := t, segs := st.segs }
  | .other => st

/-- Modelled from the claim's words: fold `claimStep` from
`lastSpeechEnd = 0` with no segments. -/
def claimSegmentation (lines : List AudioLine) : List SpeechSeg :=
  (lines.foldl claimStep ⟨0, []⟩).segs

/-- The type tag of a candidate event: `'speech'`, `'click'` or
`'quick_extract'` in the source. -/
inductive EventKind where
  | speech
  | click
  | quickInterval
deriving DecidableEq

/-- A combined candidate event, embedding the objects built in
`combinedEvents` in the upload route. -/
structure CandidateEvent where
  timestamp : ℚ
  kind : EventKind
  confidence : ℚ
  x : ℚ
  y : ℚ
  reason : String
deriving DecidableEq

/-- A raw click event parsed from the cursor-tracking output
(`clickEvents` in the route): timestamp, optional estimated position and
a confidence score. -/
structure ClickEvent where
  timestamp : ℚ
  x : Option ℚ
  y : Option ℚ
  confidence : ℚ
deriving DecidableEq

/-- JavaScript `v || d` on an optional number: the default is taken when
the value is absent or zero (zero is falsy). -/
def jsOr (v : Option ℚ) (d : ℚ) : ℚ :=
  match v with
  | none => d
  | some x => if x = 0 then d else x

/-- Embeds the speech branch of `combinedEvents`: one event per speech
segment, timestamped at the segment midpoint, confidence 0.7, position
`(400 + random * 200, 300 + random * 200)` with the i-th segment consuming
the oracle values `rng (2 i)` and `rng (2 i + 1)`. -/
def speechToEvent (rng : ℕ → ℚ) (i : ℕ) (s : SpeechSeg) : CandidateEvent :=
  { timestamp := s.start + (s.stop - s.start) / 2
    kind := EventKind.speech
    confidence := 7 / 10
    x := 400 + rng (2 * i) * 200
    y := 300 + rng (2 * i + 1) * 200
    reason := "Speech detected" }

/-- The list of speech-derived candidate events, in segment order. -/
def speechEvents (rng : ℕ → ℚ) (segs : List SpeechSeg) : List CandidateEvent :=
  segs.enum.map fun p => speechToEvent rng p.1 p.2

/-- Embeds the click branch of `combinedEvents`: type `'click'`, the
parsed confidence, and position `c.x || 400`, `c.y || 300`. -/
def clickToEvent (c : ClickEvent) : CandidateEvent :=
  { timestamp := c.timestamp
    kind := EventKind.click
    confidence := c.confidence
    x := jsOr c.x 400
    y := jsOr c.y 300
    reason := "Visual change detected (potential click)" }

/-- Embeds `combinedEvents`: speech events first, then click events,
stably sorted ascending by timestamp (JavaScript `Array.prototype.sort`
is stable). -/
def combinedEvents (rng : ℕ → ℚ) (segs : List SpeechSeg)
    (clicks : List ClickEvent) : List CandidateEvent :=
  (speechEvents rng segs ++ clicks.map clickToEvent).mergeSort
    fun a b => decide (a.timestamp ≤ b.timestamp)

/-- A frame descriptor, embedding the objects pushed onto `frameData` in
the route (the served URL and filename are derived data and omitted). -/
structure FrameDescriptor where
  kind : EventKind
  timestamp : ℚ
  selected : Bool
  x : ℚ
  y : ℚ
  confidence : ℚ
  reason : String
deriving DecidableEq

/-- The descriptor built from one candidate event in the smart-mode
extraction loop: `selected` is `event.type === 'click' ||
event.confidence > 0.8`. -/
def descriptorOf (e : CandidateEvent) : FrameDescriptor :=
  { kind := e.kind
    timestamp := e.timestamp
    selected := (e.kind == EventKind.click) || decide ((8 : ℚ) / 10 < e.confidence)
    x := e.x
    y := e.y
    confidence := e.confidence
    reason := e.reason }

/-- Embeds the smart-mode extraction loop: iterate the first
`min(length, 20)` combined events; `ok` tells whether the per-event
ffmpeg extraction succeeds (a failed extraction is skipped, the loop
continues). -/
def smartFrameData (events : List CandidateEvent)
    (ok : CandidateEvent → Bool) : List FrameDescriptor :=
  ((events.take 20).filter ok).map descriptorOf

/-- Embeds the quick-mode mapping over the extracted files: the frame at
list index `i` gets timestamp `i * 10`, `selected: true`, and the
deterministic placeholder position
`(400 + (i * 50) % 400, 300 + (i * 30) % 300)` with confidence 0.7. -/
def quickFrame (i : ℕ) : FrameDescriptor :=
  { kind := EventKind.quickInterval
    timestamp := (i : ℚ) * 10
    selected := true
    x := 400 + ((i * 50) % 400 : ℕ)
    y := 300 + ((i * 30) % 300 : ℕ)
    confidence := 7 / 10
    reason := "Regular interval extraction" }

/-- Quick-mode frame data for `n` extracted files. -/
def quickFrameData (n : ℕ) : List FrameDescriptor :=
  (List.range n).map quickFrame

/-- A concrete random oracle used to exhibit two speech events with
different placeholder positions: the first event draws 0 twice, the
second draws 1/2 twice. -/
def rngTwoValues : ℕ → ℚ :=
  fun n => if n < 2 then 0 else 1 / 2

/-- A click target, embedding `HotspotData` from `shared/schema.ts`. -/
structure Hotspot where
  id : String
  x : ℚ
  y : ℚ
  label : String
deriving DecidableEq

/-- A recorded attempt, embedding the `testAttempts` row built by
`recordAttemptMutation` (the server-assigned id and wall-clock
`attemptTime` are omitted). -/
structure TestAttempt where
  sessionId : ℕ
  stepNumber : ℕ
  hotspotId : String
  clickX : ℚ
  clickY : ℚ
  expectedX : ℚ
  expectedY : ℚ
  isCorrect : Bool
  timeSpentMs : ℤ
deriving DecidableEq

/-- A test session, embedding the `testSessions` row (frames and name
omitted; `completedTime` is an abstract timestamp). -/
structure TestSession where
  id : ℕ
  totalSteps : ℕ
  currentStep : ℕ
  isCompleted : Bool
  hotspotData : List (List Hotspot)
  completedTime : Option ℕ
deriving DecidableEq

/-- Embeds `MemStorage.createTestSession`: whatever `totalSteps` the
insert payload carries, the stored session starts at `currentStep = 1`
with `isCompleted = false` and no completion time. -/
def createTestSession (id totalSteps : ℕ)
    (hotspotData : List (List Hotspot)) : TestSession :=
  { id := id
    totalSteps := totalSteps
    currentStep := 1
    isCompleted := false
    hotspotData := hotspotData
    completedTime := none }

/-- The client-side state relevant to scoring: the loaded session (if
any) and the append-only list of recorded attempts. -/
structure ClientState where
  session : Option TestSession
  attempts : List TestAttempt
deriving DecidableEq

/-- Embeds the hotspot lookup in `handleHotspotClick`:
`session.hotspotData[session.currentStep - 1] || []`, then
`find(h => h.id === hotspotId)`. -/
def findHotspot (s : TestSession) (hotspotId : String) : Option Hotspot :=
  (s.hotspotData.getD (s.currentStep - 1) []).find? fun h => h.id == hotspotId

/-- Embeds `handleHotspotClick` from `use-test-session.ts` together with
the storage updates it issues: no session or no matching hotspot is a
no-op; otherwise the attempt is recorded, and on a correct click the
session advances one step, is completed when the next step exceeds
`totalSteps`, and the completion time is stamped with `now` exactly
then (a PATCH body serialized by JSON drops the `undefined` value, so an
unfinished session keeps its previous completion time). -/
def handleHotspotClick (st : ClientState) (hotspotId : String)
    (clickX clickY : ℚ) (isCorrect : Bool) (timeSpentMs : ℤ) (now : ℕ) :
    ClientState :=
  match st.session with
  | none => st
  | some session =>
    match findHotspot session hotspotId with
    | none => st
    | some target =>
      let attempt : TestAttempt :=
        { sessionId := session.id
          stepNumber := session.currentStep
          hotspotId := hotspotId
          clickX := clickX
          clickY := clickY
          expectedX := target.x
          expectedY := target.y
          isCorrect := isCorrect
          timeSpentMs := timeSpentMs }
      if isCorrect then
        let nextStep := session.currentStep + 1
        let completed := decide (session.totalSteps < nextStep)
        { session := some
            { session with
              currentStep := nextStep
              isCompleted := completed
              completedTime :=
                if completed then some now else session.completedTime }
          attempts := st.attempts ++ [attempt] }
      else
        { session := st.session, attempts := st.attempts ++ [attempt] }

/-- The client states reachable through the core operations: creation
from a finalized selection of frames (one hotspot list per selected
frame, so `totalSteps` is their count) followed by any sequence of
clicks. -/
inductive Reachable : ClientState → Prop where
  | create (id : ℕ) (hotspotData : List (List Hotspot)) :
      Reachable ⟨some (createTestSession id hotspotData.length hotspotData), []⟩
  | step (st : ClientState) (hotspotId : String) (clickX clickY : ℚ)
      (isCorrect : Bool) (timeSpentMs : ℤ) (now : ℕ) :
      Reachable st →
      Reachable (handleHotspotClick st hotspotId clickX clickY isCorrect
        timeSpentMs now)

/-- An effect on the server's scratch storage. -/
inductive FsOp where
  | create (f : String)
  | delete (f : String)
deriving DecidableEq

/-- Applies one file effect to the set of existing files. -/
def applyFsOp (fs : List String) : FsOp → List String
  | .create f => fs ++ [f]
  | .delete f => fs.filter fun g => g ≠ f

/-- Runs a trace of file effects from the given starting set. -/
def runFs (fs : List String) (ops : List FsOp) : List String :=
  ops.foldl applyFsOp fs

/-- The file effects of a fully successful smart-mode upload, in source
order: multer stores the uploaded video; the audio and cursor analyses
write their text outputs and scene-change stills into the per-upload
output directory; the extraction loop writes one still per processed
event; finally `fs.unlinkSync(videoPath)` removes the uploaded video —
and nothing else is ever deleted. -/
def smartSuccessOps : List FsOp :=
  [FsOp.create "uploads/video",
   FsOp.create "frames/out/audio_analysis.txt",
   FsOp.create "frames/out/cursor_analysis.txt",
   FsOp.create "frames/out/cursor_001.png",
   FsOp.create "frames/out/speech_000.png",
   FsOp.delete "uploads/video"]

/-- The file effects of a smart-mode upload whose `fs.mkdirSync(outputDir)`
throws right after multer stored the video: control jumps to the outer
`catch`, which answers 500 and deletes nothing. -/
def smartMkdirFailOps : List FsOp :=
  [FsOp.create "uploads/video"]

/-- A candidate event at integer timestamp `i`, for concrete inputs. -/
def evtAtTime (i : ℕ) : CandidateEvent :=
  { timestamp := (i : ℚ)
    kind := EventKind.speech
    confidence := 1
    x := 400
    y := 300
    reason := "Speech detected" }

/-- The candidate events at timestamps 0 to n-1, a concrete input for
exercising the 20-frame cap. -/
def rampEvents (n : ℕ) : List CandidateEvent :=
  (List.range n).map evtAtTime

/-- Three one-hotspot steps, a concrete finalized frame selection. -/
def demoHotspots : List (List Hotspot) :=
  [[⟨"h1", 100, 100, "Step 1"⟩],
   [⟨"h2", 200, 200, "Step 2"⟩],
   [⟨"h3", 300, 300, "Step 3"⟩]]

/-- The client state right after creating a session from `demoHotspots`. -/
def demoState : ClientState :=
  ⟨some (createTestSession 1 demoHotspots.length demoHotspots), []⟩

/-! ## Theorems -/

/-- C1: the attempt scorer accepts a click iff it is within the tolerance
on each axis independently (an axis-aligned square window, default
tolerance 25); the `TestDisplay` inline check agrees with it, and the four
example clicks around the target (100, 100) score as the claim states. -/
theorem validateClickTolerance_square_window :
    (∀ x y ex ey t : ℚ, validateClickTolerance x y ex ey t = true ↔
      (|x - ex| ≤ t ∧ |y - ey| ≤ t)) ∧
    (∀ x y ex ey : ℚ, validateClickTolerance x y ex ey = true ↔
      (|x - ex| ≤ 25 ∧ |y - ey| ≤ 25)) ∧
    (∀ x y ex ey : ℚ,
      testDisplayIsCorrect x y ex ey = validateClickTolerance x y ex ey) ∧
    validateClickTolerance 125 125 100 100 = true ∧
    validateClickTolerance 126 100 100 100 = false ∧
    validateClickTolerance 75 75 100 100 = true ∧
    validateClickTolerance 74 100 100 100 = false := by
  refine ⟨?_, ?_, ?_, by norm_num [validateClickTolerance],
    by norm_num [validateClickTolerance], by norm_num [validateClickTolerance],
    by norm_num [validateClickTolerance]⟩
  · intro x y ex ey t
    simp [validateClickTolerance]
  · intro x y ex ey
    simp [validateClickTolerance]
  · intro x y ex ey
    simp [validateClickTolerance, testDisplayIsCorrect]

/-- C2 counterexample: an audio-analysis file that reads successfully but
contains no silence markers parses to the empty segment list, yet the
fallback grid does not activate (the result is empty, not the 20-segment
grid); so "fallback activates iff the parsed list is empty" is false. -/
theorem fallback_not_activated_on_empty_parse :
    parseSpeechSegments [AudioLine.other] = [] ∧
    computeSpeechSegments (some [AudioLine.other]) = [] ∧
    computeSpeechSegments (some [AudioLine.other]) ≠ fallbackSegments ∧
    fallbackSegments.length = 20 := by
  have hceil : Nat.ceil (videoDuration / 15) = 20 := by
    rw [show videoDuration / 15 = (20 : ℚ) by norm_num [videoDuration]]
    simp
  have hlen : fallbackSegments.length = 20 := by
    simp only [fallbackSegments, List.length_map, List.length_range, hceil]
  refine ⟨rfl, rfl, ?_, hlen⟩
  intro h
  have h20 : (computeSpeechSegments (some [AudioLine.other])).length = 20 := by
    rw [h, hlen]
  simp [computeSpeechSegments, parseSpeechSegments, parseStep] at h20

/-- C2 amended: the fallback grid activates exactly when reading the
audio-analysis output throws (not when a successful parse yields an empty
list); when it activates it produces exactly ceil(300/15) = 20
pseudo-segments `[15 i, 15 i + 2]`. -/
theorem fallback_grid_on_read_failure :
    computeSpeechSegments none = fallbackSegments ∧
    fallbackSegments =
      (List.range 20).map (fun i : ℕ => ⟨(i : ℚ) * 15, (i : ℚ) * 15 + 2⟩) ∧
    (∀ lines, computeSpeechSegments (some lines) = parseSpeechSegments lines) := by
  refine ⟨rfl, ?_, fun _ => rfl⟩
  have hceil : Nat.ceil (videoDuration / 15) = 20 := by
    rw [show videoDuration / 15 = (20 : ℚ) by norm_num [videoDuration]]
    simp
  simp only [fallbackSegments, hceil]

/-- C3 counterexample: on two consecutive silence-start lines at 5 and 20
the code emits only `[0, 5]` — the second silence-start is ignored because
a silence interval is already open — although its gap 20 - 0 exceeds 3;
the claim's rule ("emits exactly when the gap exceeds 3.0s") would emit
`[0, 20]` as well, so the claim's characterization differs from the code. -/
theorem speech_segmentation_guard_counterexample :
    parseSpeechSegments [AudioLine.silenceStart 5, AudioLine.silenceStart 20] =
      [⟨0, 5⟩] ∧
    claimSegmentation [AudioLine.silenceStart 5, AudioLine.silenceStart 20] =
      [⟨0, 5⟩, ⟨0, 20⟩] ∧
    parseSpeechSegments [AudioLine.silenceStart 5, AudioLine.silenceStart 20] ≠
      claimSegmentation [AudioLine.silenceStart 5, AudioLine.silenceStart 20] := by
  refine ⟨?_, ?_, ?_⟩ <;>
    norm_num [parseSpeechSegments, claimSegmentation, parseStep, claimStep]

/-- C3 amended: the scanner emits `[lastSpeechEnd, t]` on a silence-start
at `t` exactly when `t - lastSpeechEnd > 3` AND no silence interval is
currently open, opening the marker; a silence-start with an open marker is
ignored; a silence-end at `t` sets `lastSpeechEnd := t` exactly when a
silence interval is open, and is ignored otherwise; on the input
silence_start=5, silence_end=6, silence_start=20 the output is exactly
`[0, 5]` then `[6, 20]`. -/
theorem speech_segmentation_step_characterization :
    (∀ e : ℚ, ∀ segs : List SpeechSeg, ∀ t : ℚ,
      parseStep ⟨none, e, segs⟩ (AudioLine.silenceStart t) =
        ⟨some t, e, if e + 3 < t then segs ++ [⟨e, t⟩] else segs⟩) ∧
    (∀ s e : ℚ, ∀ segs : List SpeechSeg, ∀ t : ℚ,
      parseStep ⟨some s, e, segs⟩ (AudioLine.silenceStart t) = ⟨some s, e, segs⟩) ∧
    (∀ s e : ℚ, ∀ segs : List SpeechSeg, ∀ t : ℚ,
      parseStep ⟨some s, e, segs⟩ (AudioLine.silenceEnd t) = ⟨none, t, segs⟩) ∧
    (∀ e : ℚ, ∀ segs : List SpeechSeg, ∀ t : ℚ,
      parseStep ⟨none, e, segs⟩ (AudioLine.silenceEnd t) = ⟨none, e, segs⟩) ∧
    parseSpeechSegments
        [AudioLine.silenceStart 5, AudioLine.silenceEnd 6, AudioLine.silenceStart 20] =
      [⟨0, 5⟩, ⟨6, 20⟩] := by
  refine ⟨fun e segs t => rfl, fun s e segs t => rfl, fun s e segs t => rfl,
    fun e segs t => rfl, ?_⟩
  norm_num [parseSpeechSegments, parseStep]

/-- The merged candidate-event list is sorted by timestamp (a stable merge
sort over a transitive, total comparison). -/
theorem combinedEvents_pairwise (rng : ℕ → ℚ) (segs : List SpeechSeg)
    (clicks : List ClickEvent) :
    (combinedEvents rng segs clicks).Pairwise
      fun a b => a.timestamp ≤ b.timestamp := by
  have h := @List.sorted_mergeSort CandidateEvent
    (fun a b => decide (a.timestamp ≤ b.timestamp))
    (fun a b c hab hbc =>
      decide_eq_true (le_trans (of_decide_eq_true hab) (of_decide_eq_true hbc)))
    (fun a b => by
      simp only [Bool.or_eq_true, decide_eq_true_eq]
      exact le_total a.timestamp b.timestamp)
    (speechEvents rng segs ++ clicks.map clickToEvent)
  exact h.imp fun hab => of_decide_eq_true hab

/-- C4: the smart-mode sampler emits at most 20 descriptors for any
candidate list; with no extraction failures it emits exactly one
descriptor per event of the first 20 events, hence exactly 20 when the
candidate list has at least 20 entries; the merged candidate list is
sorted ascending by timestamp, and in any timestamp-sorted list every
event kept by the 20-cap has a timestamp at most that of every dropped
event. -/
theorem smart_sampler_cap_and_earliest :
    (∀ events ok, (smartFrameData events ok).length ≤ 20) ∧
    (∀ events, smartFrameData events (fun _ => true) =
      (events.take 20).map descriptorOf) ∧
    (∀ events, 20 ≤ events.length →
      (smartFrameData events (fun _ => true)).length = 20) ∧
    (∀ rng segs clicks,
      (combinedEvents rng segs clicks).Pairwise
        fun a b => a.timestamp ≤ b.timestamp) ∧
    (∀ events : List CandidateEvent,
      (events.Pairwise fun a b => a.timestamp ≤ b.timestamp) →
      ∀ a ∈ events.take 20, ∀ b ∈ events.drop 20, a.timestamp ≤ b.timestamp) := by
  refine ⟨?_, ?_, ?_, combinedEvents_pairwise, ?_⟩
  · intro events ok
    calc (smartFrameData events ok).length
        = ((events.take 20).filter ok).length := by
          simp [smartFrameData]
      _ ≤ (events.take 20).length := List.length_filter_le ok (events.take 20)
      _ ≤ 20 := by
          simp only [List.length_take]
          omega
  · intro events
    simp [smartFrameData, List.filter_true]
  · intro events h
    simp only [smartFrameData, List.filter_true, List.length_map,
      List.length_take]
    omega
  · intro events hp a ha b hb
    rw [← List.take_append_drop 20 events] at hp
    exact (List.pairwise_append.mp hp).2.2 a ha b hb

/-- Witness for C4 at concrete inputs: 35 candidate events yield exactly
20 descriptors, and in the sorted 21-event list the first kept event's
timestamp is at most the dropped event's timestamp. -/
theorem smart_sampler_cap_witness :
    (smartFrameData (rampEvents 35) (fun _ => true)).length = 20 ∧
    (evtAtTime 0).timestamp ≤ (evtAtTime 20).timestamp := by
  have hsorted : (rampEvents 21).Pairwise
      fun a b => a.timestamp ≤ b.timestamp := by
    rw [rampEvents, List.pairwise_map]
    exact (List.pairwise_lt_range 21).imp fun hij => by
      simpa [evtAtTime] using le_of_lt hij
  have hlen20 : (rampEvents 20).length = 20 := by
    simp [rampEvents]
  have hsplit : rampEvents 21 = rampEvents 20 ++ [evtAtTime 20] := by
    rw [rampEvents, rampEvents, List.range_succ, List.map_append, List.map_singleton]
  have ha : evtAtTime 0 ∈ (rampEvents 21).take 20 := by
    rw [hsplit, List.take_left' hlen20, rampEvents]
    exact List.mem_map_of_mem evtAtTime (by simp)
  have hb : evtAtTime 20 ∈ (rampEvents 21).drop 20 := by
    rw [hsplit, List.drop_left' hlen20]
    simp
  constructor
  · exact smart_sampler_cap_and_earliest.2.2.1 (rampEvents 35)
      (by norm_num [rampEvents])
  · exact smart_sampler_cap_and_earliest.2.2.2.2 (rampEvents 21) hsorted
      _ ha _ hb

/-- C5: every smart-mode descriptor is selected iff its source event is of
click type or has confidence strictly above 0.8 (the descriptor copies the
source event's kind and confidence verbatim), and every quick-mode
descriptor is selected. -/
theorem selected_iff_click_or_high_confidence :
    (∀ events ok, ∀ d ∈ smartFrameData events ok,
      (d.selected = true ↔
        (d.kind = EventKind.click ∨ (8 : ℚ) / 10 < d.confidence))) ∧
    (∀ e : CandidateEvent, (descriptorOf e).kind = e.kind ∧
      (descriptorOf e).confidence = e.confidence) ∧
    (∀ n : ℕ, ∀ d ∈ quickFrameData n, d.selected = true) := by
  refine ⟨?_, fun e => ⟨rfl, rfl⟩, ?_⟩
  · intro events ok d hd
    obtain ⟨e, _, rfl⟩ := List.mem_map.mp hd
    simp [descriptorOf]
  · intro n d hd
    obtain ⟨i, _, rfl⟩ := List.mem_map.mp hd
    rfl

/-- Witness for C5 at a concrete click event and a concrete quick frame. -/
theorem selected_iff_witness :
    ((descriptorOf ⟨0, EventKind.click, 1, 400, 300, "r"⟩).selected = true ↔
      ((descriptorOf ⟨0, EventKind.click, 1, 400, 300, "r"⟩).kind =
          EventKind.click ∨
        (8 : ℚ) / 10 <
          (descriptorOf ⟨0, EventKind.click, 1, 400, 300, "r"⟩).confidence)) ∧
    (quickFrame 0).selected = true := by
  constructor
  · exact selected_iff_click_or_high_confidence.1
      [⟨0, EventKind.click, 1, 400, 300, "r"⟩] (fun _ => true) _
      (by simp [smartFrameData])
  · exact selected_iff_click_or_high_confidence.2.2 3 (quickFrame 0)
      (List.mem_map_of_mem quickFrame (by simp))

/-- C8 counterexample: with the oracle drawing 0 for the first speech
event's position and 1/2 for the second, the two speech-derived events get
placeholder positions (400, 300) and (500, 400): the position is drawn
per event from `Math.random`, not a fixed constant shared by every
speech-derived event and every run. -/
theorem speech_event_position_not_fixed :
    (speechEvents rngTwoValues [⟨0, 2⟩, ⟨10, 12⟩]).map (fun e => (e.x, e.y)) =
      [((400 : ℚ), (300 : ℚ)), (500, 400)] ∧
    ∃ e1 ∈ speechEvents rngTwoValues [⟨0, 2⟩, ⟨10, 12⟩],
      ∃ e2 ∈ speechEvents rngTwoValues [⟨0, 2⟩, ⟨10, 12⟩], e1.x ≠ e2.x := by
  constructor
  · norm_num [speechEvents, speechToEvent, rngTwoValues, List.enum,
      List.enumFrom]
  · have h1 : ((0 : ℕ), (⟨0, 2⟩ : SpeechSeg)) ∈
        ([⟨0, 2⟩, ⟨10, 12⟩] : List SpeechSeg).enum := by decide
    have h2 : ((1 : ℕ), (⟨10, 12⟩ : SpeechSeg)) ∈
        ([⟨0, 2⟩, ⟨10, 12⟩] : List SpeechSeg).enum := by decide
    refine ⟨speechToEvent rngTwoValues 0 ⟨0, 2⟩,
      List.mem_map_of_mem (fun p : ℕ × SpeechSeg =>
        speechToEvent rngTwoValues p.1 p.2) h1,
      speechToEvent rngTwoValues 1 ⟨10, 12⟩,
      List.mem_map_of_mem (fun p : ℕ × SpeechSeg =>
        speechToEvent rngTwoValues p.1 p.2) h2, ?_⟩
    norm_num [speechToEvent, rngTwoValues]

/-- C8 amended: every speech segment yields exactly one candidate event,
timestamped at the segment midpoint with confidence 0.7; its placeholder
position is drawn per event from the random oracle inside the fixed
region 400 ≤ x < 600, 300 ≤ y < 500 (the region is fixed, the position is
not). -/
theorem speech_events_midpoint_and_region :
    ∀ (rng : ℕ → ℚ) (segs : List SpeechSeg),
      (∀ n, 0 ≤ rng n ∧ rng n < 1) →
      (speechEvents rng segs).length = segs.length ∧
      ∀ e ∈ speechEvents rng segs,
        e.kind = EventKind.speech ∧ e.confidence = 7 / 10 ∧
        (∃ s ∈ segs, e.timestamp = s.start + (s.stop - s.start) / 2) ∧
        400 ≤ e.x ∧ e.x < 600 ∧ 300 ≤ e.y ∧ e.y < 500 := by
  intro rng segs hrng
  constructor
  · simp [speechEvents]
  · intro e he
    obtain ⟨⟨i, s⟩, hp, rfl⟩ := List.mem_map.mp he
    have hs : s ∈ segs := List.getElem?_mem (List.mem_enum_iff_getElem?.mp hp)
    have hx0 := (hrng (2 * i)).1
    have hx1 := (hrng (2 * i)).2
    have hy0 := (hrng (2 * i + 1)).1
    have hy1 := (hrng (2 * i + 1)).2
    refine ⟨rfl, rfl, ⟨s, hs, rfl⟩, ?_, ?_, ?_, ?_⟩ <;>
      simp only [speechToEvent] <;> nlinarith

/-- Witness for C8 at the constant-zero oracle and one segment. -/
theorem speech_events_midpoint_witness :
    (∀ _n : ℕ, (0 : ℚ) ≤ 0 ∧ (0 : ℚ) < 1) ∧
    (speechEvents (fun _ => 0) [⟨0, 2⟩]).length =
      [(⟨0, 2⟩ : SpeechSeg)].length ∧
    (speechToEvent (fun _ => 0) 0 ⟨0, 2⟩).confidence = 7 / 10 := by
  have hrng : ∀ n : ℕ, (0 : ℚ) ≤ 0 ∧ (0 : ℚ) < 1 :=
    fun _ => ⟨le_refl 0, by norm_num⟩
  have h := speech_events_midpoint_and_region (fun _ => 0) [⟨0, 2⟩] hrng
  exact ⟨hrng, h.1, (h.2 _ (by simp [speechEvents])).2.1⟩

/-- C6: with a session loaded and a hotspot of the current step matched, a
correct click appends the attempt record and advances `currentStep` by
exactly one, marking the session completed and stamping the completion
time exactly when the next step exceeds `totalSteps`; an incorrect click
appends the attempt record marked incorrect and leaves the session (in
particular `currentStep`) unchanged; from `Active(1)` with `totalSteps = 3`,
three correct clicks drive `currentStep` 1 → 2 → 3 → 4 and complete the
session. -/
theorem session_click_transitions :
    (∀ st session target, ∀ hotspotId : String, ∀ clickX clickY : ℚ,
      ∀ timeSpentMs : ℤ, ∀ now : ℕ,
      st.session = some session →
      findHotspot session hotspotId = some target →
      handleHotspotClick st hotspotId clickX clickY true timeSpentMs now =
        { session := some
            { session with
              currentStep := session.currentStep + 1
              isCompleted := decide (session.totalSteps < session.currentStep + 1)
              completedTime :=
                if decide (session.totalSteps < session.currentStep + 1) = true
                then some now else session.completedTime }
          attempts := st.attempts ++
            [{ sessionId := session.id, stepNumber := session.currentStep,
               hotspotId := hotspotId, clickX := clickX, clickY := clickY,
               expectedX := target.x, expectedY := target.y,
               isCorrect := true, timeSpentMs := timeSpentMs }] }) ∧
    (∀ st session target, ∀ hotspotId : String, ∀ clickX clickY : ℚ,
      ∀ timeSpentMs : ℤ, ∀ now : ℕ,
      st.session = some session →
      findHotspot session hotspotId = some target →
      handleHotspotClick st hotspotId clickX clickY false timeSpentMs now =
        { session := st.session
          attempts := st.attempts ++
            [{ sessionId := session.id, stepNumber := session.currentStep,
               hotspotId := hotspotId, clickX := clickX, clickY := clickY,
               expectedX := target.x, expectedY := target.y,
               isCorrect := false, timeSpentMs := timeSpentMs }] }) ∧
    ((handleHotspotClick demoState "h1" 100 100 true 5 7).session.map
        TestSession.currentStep = some 2 ∧
      ((handleHotspotClick (handleHotspotClick demoState "h1" 100 100 true 5 7)
          "h2" 200 200 true 5 7).session.map TestSession.currentStep = some 3) ∧
      ((handleHotspotClick (handleHotspotClick
          (handleHotspotClick demoState "h1" 100 100 true 5 7)
          "h2" 200 200 true 5 7) "h3" 300 300 true 5 7).session.map
        TestSession.currentStep = some 4) ∧
      ((handleHotspotClick (handleHotspotClick
          (handleHotspotClick demoState "h1" 100 100 true 5 7)
          "h2" 200 200 true 5 7) "h3" 300 300 true 5 7).session.map
        TestSession.isCompleted = some true) ∧
      (handleHotspotClick (handleHotspotClick
          (handleHotspotClick demoState "h1" 100 100 true 5 7)
          "h2" 200 200 true 5 7) "h3" 300 300 true 5 7).attempts.length = 3 ∧
      (handleHotspotClick demoState "h1" 0 0 false 5 7).session.map
        TestSession.currentStep = some 1 ∧
      (handleHotspotClick demoState "h1" 0 0 false 5 7).attempts.length = 1) := by
  refine ⟨?_, ?_, by decide⟩
  · intro st session target hotspotId clickX clickY timeSpentMs now hsess hfind
    simp [handleHotspotClick, hsess, hfind]
  · intro st session target hotspotId clickX clickY timeSpentMs now hsess hfind
    simp [handleHotspotClick, hsess, hfind]

/-- Witness for C6: one correct click on the concrete demo session. -/
theorem session_click_transitions_witness :
    handleHotspotClick demoState "h1" 100 100 true 5 7 =
      { session := some
          { id := 1, totalSteps := 3, currentStep := 2, isCompleted := false,
            hotspotData := demoHotspots, completedTime := none }
        attempts := [{ sessionId := 1, stepNumber := 1, hotspotId := "h1",
                       clickX := 100, clickY := 100, expectedX := 100,
                       expectedY := 100, isCorrect := true,
                       timeSpentMs := 5 }] } := by
  have h := session_click_transitions.1 demoState
      (createTestSession 1 demoHotspots.length demoHotspots)
      ⟨"h1", 100, 100, "Step 1"⟩ "h1" 100 100 5 7 rfl (by decide)
  rw [h]
  decide

/-- If a hotspot is found for the current step, the step's index is within
the hotspot table. -/
theorem findHotspot_some_index_lt (s : TestSession) (hid : String)
    (h : Hotspot) (hf : findHotspot s hid = some h) :
    s.currentStep - 1 < s.hotspotData.length := by
  by_contra hge
  push_neg at hge
  rw [findHotspot, List.getD_eq_default _ _ hge] at hf
  simp at hf

/-- C7 counterexample: a session created from zero selected frames has
`totalSteps = 0` but starts with `currentStep = 1` and
`isCompleted = false`, so it is not immediately completed and violates
`isCompleted == (currentStep > totalSteps)`. -/
theorem zero_frame_session_not_completed :
    (createTestSession 1 0 []).totalSteps = 0 ∧
    (createTestSession 1 0 []).currentStep = 1 ∧
    (createTestSession 1 0 []).isCompleted = false ∧
    (createTestSession 1 0 []).totalSteps < (createTestSession 1 0 []).currentStep ∧
    (createTestSession 1 0 []).isCompleted ≠
      decide ((createTestSession 1 0 []).totalSteps <
        (createTestSession 1 0 []).currentStep) := by
  decide

/-- C7 amended: every session reachable through creation-from-frames and
click transitions satisfies `1 ≤ currentStep ≤ totalSteps + 1` and keeps
one hotspot list per step; when `totalSteps ≥ 1` it also satisfies
`isCompleted = (currentStep > totalSteps)`; a session created from zero
selected frames instead stays at `currentStep = 1` with
`isCompleted = false` (it is never marked completed). -/
theorem reachable_session_invariant :
    ∀ st, Reachable st → ∀ s, st.session = some s →
      s.hotspotData.length = s.totalSteps ∧
      1 ≤ s.currentStep ∧ s.currentStep ≤ s.totalSteps + 1 ∧
      (1 ≤ s.totalSteps →
        s.isCompleted = decide (s.totalSteps < s.currentStep)) ∧
      (s.totalSteps = 0 → s.currentStep = 1 ∧ s.isCompleted = false) := by
  intro st hreach
  induction hreach with
  | create id hotspotData =>
    intro s hs
    injection hs with hs
    subst hs
    refine ⟨rfl, le_refl 1, by simp [createTestSession], ?_, ?_⟩
    · intro h1
      simp only [createTestSession] at h1 ⊢
      have hlt : ¬ (hotspotData.length < 1) := by omega
      simp [hlt]
    · intro _
      simp [createTestSession]
  | step st hid cx cy b t now hst ih =>
    intro s hs
    rcases hsess : st.session with _ | session
    · have heq : handleHotspotClick st hid cx cy b t now = st := by
        simp [handleHotspotClick, hsess]
      rw [heq] at hs
      exact ih s hs
    · rcases hfind : findHotspot session hid with _ | target
      · have heq : handleHotspotClick st hid cx cy b t now = st := by
          simp [handleHotspotClick, hsess, hfind]
        rw [heq] at hs
        exact ih s hs
      · cases b with
        | false =>
          have heq : (handleHotspotClick st hid cx cy false t now).session =
              st.session := by
            simp [handleHotspotClick, hsess, hfind]
          rw [heq] at hs
          exact ih s hs
        | true =>
          have hidx : session.currentStep - 1 < session.hotspotData.length :=
            findHotspot_some_index_lt session hid target hfind
          have hses := ih session hsess
          have heq : (handleHotspotClick st hid cx cy true t now).session =
              some { session with
                currentStep := session.currentStep + 1
                isCompleted :=
                  decide (session.totalSteps < session.currentStep + 1)
                completedTime :=
                  if decide (session.totalSteps < session.currentStep + 1) = true
                  then some now else session.completedTime } := by
            simp [handleHotspotClick, hsess, hfind]
          rw [heq] at hs
          injection hs with hs
          subst hs
          have h1 := hses.2.1
          have h2 := hses.1
          refine ⟨hses.1, ?_, ?_, fun _ => rfl, ?_⟩
          · show 1 ≤ session.currentStep + 1
            omega
          · show session.currentStep + 1 ≤ session.totalSteps + 1
            omega
          · intro h0
            exfalso
            have h0' : session.totalSteps = 0 := h0
            omega

/-- Witness for C7: the freshly created demo session is reachable and
satisfies the invariant. -/
theorem reachable_session_invariant_witness :
    1 ≤ (createTestSession 1 demoHotspots.length demoHotspots).currentStep ∧
    (createTestSession 1 demoHotspots.length demoHotspots).currentStep ≤
      (createTestSession 1 demoHotspots.length demoHotspots).totalSteps + 1 := by
  have h := reachable_session_invariant demoState
    (Reachable.create 1 demoHotspots)
    (createTestSession 1 demoHotspots.length demoHotspots) rfl
  exact ⟨h.2.1, h.2.2.1⟩

/-- C9: evaluating the route's file effects, a fully successful smart-mode
run leaves the audio and cursor analysis files and the scene-change stills
on disk (only the uploaded video is ever deleted, by the single
`fs.unlinkSync(videoPath)` on the success path), and a run whose
output-directory creation throws leaves the uploaded video itself behind
(the error branch deletes nothing) — so transient scratch artifacts do
remain after the request completes. -/
theorem scratch_files_remain :
    runFs [] smartSuccessOps =
      ["frames/out/audio_analysis.txt", "frames/out/cursor_analysis.txt",
       "frames/out/cursor_001.png", "frames/out/speech_000.png"] ∧
    "frames/out/audio_analysis.txt" ∈ runFs [] smartSuccessOps ∧
    "uploads/video" ∈ runFs [] smartMkdirFailOps := by
  refine ⟨by decide, by decide, by decide⟩

/-- C10: a click with no loaded session, or whose hotspot id matches no
hotspot of the session's current step, is a silent no-op: no attempt is
recorded and the session (its `currentStep` and `isCompleted` included) is
unchanged. -/
theorem hotspot_click_noop :
    (∀ hid : String, ∀ cx cy : ℚ, ∀ b : Bool, ∀ t : ℤ, ∀ now : ℕ,
      ∀ attempts : List TestAttempt,
      handleHotspotClick ⟨none, attempts⟩ hid cx cy b t now =
        ⟨none, attempts⟩) ∧
    (∀ st session, ∀ hid : String, ∀ cx cy : ℚ, ∀ b : Bool, ∀ t : ℤ,
      ∀ now : ℕ,
      st.session = some session →
      findHotspot session hid = none →
      handleHotspotClick st hid cx cy b t now = st) := by
  constructor
  · intro hid cx cy b t now attempts
    rfl
  · intro st session hid cx cy b t now hsess hfind
    simp [handleHotspotClick, hsess, hfind]

/-- Witness for C10: a click on an unknown hotspot id leaves the concrete
demo state untouched. -/
theorem hotspot_click_noop_witness :
    handleHotspotClick demoState "zz" 0 0 true 5 7 = demoState :=
  hotspot_click_noop.2 demoState
    (createTestSession 1 demoHotspots.length demoHotspots)
    "zz" 0 0 true 5 7 rfl (by decide)

end CTRM
